import Mathlib

/-!
Verification of the interview-session client (interviewflow-pro).

This file shallowly embeds the state-bearing logic of the React client:

* `TextSession`   — src/components/InterviewSession.tsx (text interview flow)
* `CodingSession` — src/components/CodingInterviewSession.tsx (coding round)
* `ResultsPage`   — the results view (overall score, label, score buckets)
* `VoiceSession`  — the voice interview flow (skip handling)
* `SpeechInput`   — the speech-recognition onresult handlers
* `SpeechOutput`  — the text-to-speech chunked playback (speakText)
* `CodeEditor`    — src/components/CodeEditor.tsx (language switch, run)

React `useState` cells are gathered into explicit state records; each event
handler becomes a pure function from state (plus the outcome of any remote
call, which is an external collaborator) to state.  JS numbers that are used
as integers are modelled as `Int`/`Nat`; the one fractional computation
(`Math.round` over a quotient) is modelled over `ℚ`.
-/

/-- Semantics of JS `String.prototype.trim`: strip leading and trailing
whitespace.  (Lean's built-in `String.trim` agrees on these inputs but is
defined by well-founded recursion on byte positions, which blocks kernel
evaluation, so this char-list form is used throughout.) -/
def jsTrim (s : String) : String :=
  String.mk
    (((s.data.dropWhile Char.isWhitespace).reverse.dropWhile Char.isWhitespace).reverse)

/-- Question record: `{ id: string|number, questionText: string }`.
The id is opaque to all client logic; it is modelled as a `String`. -/
structure Question where
  id : String
  questionText : String
deriving DecidableEq

/-- FeedbackResult record: `{ score: number, aiFeedback: string }` as returned
by the remote submit-answer call.  Scores are used as integers by the UI. -/
structure FeedbackResult where
  score : Int
  aiFeedback : String
deriving DecidableEq

/-- Bundle handed to `onComplete` (the results collaborator):
`{ questions, answers, feedbacks }`. -/
structure ResultsBundle where
  questions : List Question
  answers : List String
  feedbacks : List FeedbackResult
deriving DecidableEq

/-- Outcome of the remote `api.submitAnswer` promise: the api throws on
network failure, non-2xx responses and malformed JSON bodies (src/lib/api.ts),
so the caller observes either a parsed `FeedbackResult` or a caught error. -/
inductive SubmitOutcome where
  | success : FeedbackResult → SubmitOutcome
  | failure : String → SubmitOutcome
deriving DecidableEq

/-- Observable effect of one `handleSubmitAnswer` call: either the empty-answer
guard fired (local toast only, no fetch issued) or the network call was made. -/
inductive SubmitEffect where
  | validationError : SubmitEffect
  | networkCall : SubmitEffect
deriving DecidableEq

namespace TextSession

/-- State cells of `InterviewSession` (InterviewSession.tsx lines 41-43):
`currentIndex`, `answers` (one string per question, initially `''`),
`feedbacks` (one nullable feedback per question, initially `null`). -/
structure SessionState where
  questions : List Question
  answers : List String
  feedbacks : List (Option FeedbackResult)
  currentIndex : Nat
deriving DecidableEq

/-- Initial state: index 0, `new Array(n).fill('')`, `new Array(n).fill(null)`. -/
def initSession (qs : List Question) : SessionState :=
  { questions := qs
    answers := List.replicate qs.length ""
    feedbacks := List.replicate qs.length none
    currentIndex := 0 }

/-- Derived value `currentAnswer = answers[currentIndex]` (line 51). -/
def currentAnswer (s : SessionState) : String :=
  s.answers.getD s.currentIndex ""

/-- Handler `updateAnswer` (lines 126-130): copy `answers` and overwrite the
entry at `currentIndex`. -/
def updateAnswer (s : SessionState) (value : String) : SessionState :=
  { s with answers := s.answers.set s.currentIndex value }

/-- Handler `handleSubmitAnswer` (lines 80-105).  If the trimmed current
answer is empty (JS falsiness of `currentAnswer.trim()`), a destructive toast
is shown and the function returns before any fetch.  Otherwise
`api.submitAnswer` is awaited: on success the feedback slot at `currentIndex`
is overwritten with the result; in the catch branch only a toast is shown and
no state cell changes. -/
def handleSubmitAnswer (s : SessionState) (outcome : SubmitOutcome) :
    SessionState × SubmitEffect :=
  if jsTrim (currentAnswer s) = "" then
    (s, SubmitEffect.validationError)
  else
    match outcome with
    | SubmitOutcome.success r =>
        ({ s with feedbacks := s.feedbacks.set s.currentIndex (some r) },
         SubmitEffect.networkCall)
    | SubmitOutcome.failure _ => (s, SubmitEffect.networkCall)

/-- Handler `handleNext` (lines 107-118): advance while
`currentIndex < questions.length - 1`; on the last question call
`onComplete` with the answers and the non-null feedbacks
(`feedbacks.filter(f => f !== null)`). -/
def handleNext (s : SessionState) : SessionState ⊕ ResultsBundle :=
  if s.currentIndex < s.questions.length - 1 then
    Sum.inl { s with currentIndex := s.currentIndex + 1 }
  else
    Sum.inr
      { questions := s.questions
        answers := s.answers
        feedbacks := s.feedbacks.filterMap id }

/-- One full user round on the current question: type the answer, submit it
(with the remote call succeeding with result `r`), then press next. -/
def submitNextRound (s : SessionState) (a : String) (r : FeedbackResult) :
    SessionState ⊕ ResultsBundle :=
  handleNext (handleSubmitAnswer (updateAnswer s a) (SubmitOutcome.success r)).1

/-- Run one `submit → next` round per element of `rounds`; returns the bundle
produced if completion happens exactly on the last round. -/
def runRounds : SessionState → List (String × FeedbackResult) → Option ResultsBundle
  | _, [] => none
  | s, (a, r) :: rest =>
    match submitNextRound s a r with
    | Sum.inl s2 => runRounds s2 rest
    | Sum.inr b => if rest.isEmpty then some b else none

end TextSession

namespace CodingSession

/-- State cells of `CodingInterviewSession` (CodingInterviewSession.tsx lines
50-59): per-question `answers` (the raw code), `languages` (default
`'python'`) and nullable `feedbacks`, plus `currentIndex`. -/
structure CodingState where
  questions : List Question
  answers : List String
  languages : List String
  feedbacks : List (Option FeedbackResult)
  currentIndex : Nat
deriving DecidableEq

/-- Format of a per-slot raw answer in the completion bundle
(CodingInterviewSession.tsx line 144): `Language: {lang}\n\n{code}`. -/
def formatCodingAnswer (lang code : String) : String :=
  "Language: " ++ lang ++ "\n\n" ++ code

/-- Handler `handleNext` (lines 137-149): advance while
`currentIndex < questions.length - 1`; otherwise call `onComplete` with
`answers.map((a, i) => "Language: " + languages[i] + "\n\n" + a)` and
`feedbacks.filter(Boolean)`.  A JS out-of-range `languages[i]` reads as
`undefined` and stringifies to `"undefined"`, hence the `getD` default
(unreachable in the app: both arrays are allocated with the same length). -/
def codingHandleNext (s : CodingState) : CodingState ⊕ ResultsBundle :=
  if s.currentIndex < s.questions.length - 1 then
    Sum.inl { s with currentIndex := s.currentIndex + 1 }
  else
    Sum.inr
      { questions := s.questions
        answers := s.answers.enum.map
          (fun p => formatCodingAnswer (s.languages.getD p.1 "undefined") p.2)
        feedbacks := s.feedbacks.filterMap id }

end CodingSession

namespace ResultsPage

/-- Rounding mode of JS `Math.round`: halves round toward positive infinity,
which is exactly `⌊x + 1/2⌋`. -/
def jsRound (q : ℚ) : ℤ := ⌊q + 1 / 2⌋

/-- Computation `overallScore = Math.round(feedbacks.reduce((acc, f) =>
acc + f.score, 0) / feedbacks.length)` (ResultsPage, part_000 lines 38-40).
The code has no guard for an empty list: in JS `0 / 0` is `NaN`, modelled
here as `none`; a non-empty list yields the rounded mean. -/
def overallScore (feedbacks : List FeedbackResult) : Option ℤ :=
  if feedbacks = [] then none
  else
    some (jsRound
      (((feedbacks.foldl (fun acc f => acc + f.score) 0 : ℤ) : ℚ) /
        (feedbacks.length : ℚ)))

/-- Function `getScoreLabel` (part_000 lines 54-60). -/
def getScoreLabel (score : ℤ) : String :=
  if 90 ≤ score then "Excellent!"
  else if 80 ≤ score then "Great Job!"
  else if 70 ≤ score then "Good Work"
  else if 60 ≤ score then "Keep Practicing"
  else "Needs Improvement"

/-- Bucket `highScoreQuestions = feedbacks.filter(f => f.score >= 80).length`. -/
def highScoreQuestions (feedbacks : List FeedbackResult) : Nat :=
  (feedbacks.filter (fun f => decide (80 ≤ f.score))).length

/-- Bucket `mediumScoreQuestions = feedbacks.filter(f => f.score >= 60 &&
f.score < 80).length`. -/
def mediumScoreQuestions (feedbacks : List FeedbackResult) : Nat :=
  (feedbacks.filter (fun f => decide (60 ≤ f.score) && decide (f.score < 80))).length

/-- Bucket `lowScoreQuestions = feedbacks.filter(f => f.score < 60).length`. -/
def lowScoreQuestions (feedbacks : List FeedbackResult) : Nat :=
  (feedbacks.filter (fun f => decide (f.score < 60))).length

/-- The spec's concrete results scenario: three submitted answers scoring
90, 55 and 70. -/
def resultsScenario : List FeedbackResult :=
  [{ score := 90, aiFeedback := "strong answer" },
   { score := 55, aiFeedback := "weak answer" },
   { score := 70, aiFeedback := "decent answer" }]

end ResultsPage

namespace VoiceSession

/-- State cells of the voice interview session (part_003): `answers` and
`feedbacks` are grown by push only on successful submits, so a skipped
question leaves no entry at all. -/
structure VoiceState where
  questions : List Question
  answers : List String
  feedbacks : List FeedbackResult
  currentIndex : Nat
deriving DecidableEq

/-- Initial voice-session state: `useState(0)`, `useState([])`, `useState([])`. -/
def initVoice (qs : List Question) : VoiceState :=
  { questions := qs, answers := [], feedbacks := [], currentIndex := 0 }

/-- Handler `handleSkip` (part_003 lines 429-446): advance while
`currentQuestionIndex < questions.length - 1` (clearing the transcript,
which is display-only and not modelled); on the last question call
`onComplete` with only the answers and feedbacks collected so far. -/
def handleSkip (s : VoiceState) : VoiceState ⊕ ResultsBundle :=
  if s.currentIndex < s.questions.length - 1 then
    Sum.inl { s with currentIndex := s.currentIndex + 1 }
  else
    Sum.inr
      { questions := s.questions
        answers := s.answers
        feedbacks := s.feedbacks }

/-- Press skip `n` times; returns the bundle if completion happens exactly on
the n-th press. -/
def skipAll : VoiceState → Nat → Option ResultsBundle
  | _, 0 => none
  | s, n + 1 =>
    match handleSkip s with
    | Sum.inl s2 => skipAll s2 n
    | Sum.inr b => if n = 0 then some b else none

end VoiceSession

namespace SpeechInput

/-- One recognition segment delivered by `event.results[i]`: its transcript
text `event.results[i][0].transcript` and its `isFinal` flag. -/
structure Segment where
  isFinal : Bool
  transcript : String
deriving DecidableEq

/-- Loop of the `onresult` handlers over the new segments of one event:
`finalTranscript += transcript + ' '` for each finalized segment. -/
def eventFinal (segs : List Segment) : String :=
  segs.foldl (fun acc s => if s.isFinal then acc ++ s.transcript ++ " " else acc) ""

/-- Same loop, interim side: `interimTranscript += transcript` for each
non-final segment. -/
def eventInterim (segs : List Segment) : String :=
  segs.foldl (fun acc s => if s.isFinal then acc else acc ++ s.transcript) ""

/-- The `recognition.onresult` of the enhanced VoiceChatPanel variant
(part_004 lines 50-72): only when the event carried finalized text
(`if (finalTranscript)`) is the durable transcript updated, with
`setCurrentTranscript(prev => (prev + ' ' + finalTranscript).trim())`;
interim results update no state. -/
def enhancedOnResult (current : String) (segs : List Segment) : String :=
  let ft := eventFinal segs
  if ft = "" then current else jsTrim (current ++ " " ++ ft)

/-- Durable transcript after a sequence of recognition events, starting from
the `useState('')` initial value. -/
def processEvents (events : List (List Segment)) : String :=
  events.foldl enhancedOnResult ""

/-- The `recognition.onresult` of VoiceAssistant.tsx (lines 66-96): the
displayed transcript is replaced by `finalTranscript || interimTranscript`
of the current event alone. -/
def assistantOnResult (_previous : String) (segs : List Segment) : String :=
  let ft := eventFinal segs
  if ft = "" then eventInterim segs else ft

/-- Displayed VoiceAssistant transcript after a sequence of events. -/
def assistantDisplay (events : List (List Segment)) : String :=
  events.foldl assistantOnResult ""

/-- Scenario event 1 of the spec: one finalized segment `"hi "`. -/
def ev1 : List Segment := [{ isFinal := true, transcript := "hi " }]

/-- Scenario event 2 of the spec: one interim segment `"there"`. -/
def ev2 : List Segment := [{ isFinal := false, transcript := "there" }]

/-- Scenario event 3 of the spec: one finalized segment `"friend "`. -/
def ev3 : List Segment := [{ isFinal := true, transcript := "friend " }]

/-- The spec's three-event scenario. -/
def scenarioEvents : List (List Segment) := [ev1, ev2, ev3]

end SpeechInput

namespace SpeechOutput

/-- Fixed-width chunking loop (fuel-driven so that it is structural; the fuel
is instantiated with the list length, which always suffices since each step
consumes at least one character). -/
def chunkListAux : Nat → List Char → List (List Char)
  | 0, _ => []
  | _ + 1, [] => []
  | fuel + 1, cs => cs.take 200 :: chunkListAux fuel (cs.drop 200)

/-- Chunk computation of `speakText` (VoiceChatPanel.tsx lines 104-105 and
part_004 lines 139-140): `text.match(new RegExp(`.\x7b1,200\x7d`, 'g')) ||
[text]` — the text is sliced into successive pieces of at most
`maxLength = 200` characters, and an empty text (no regex match) falls back
to the single chunk `[text]`.  The regex dot does not match newlines; this
model is exact for newline-free text such as the claim's input. -/
def chunkText (text : String) : List String :=
  if text.data = [] then [text]
  else (chunkListAux text.data.length text.data).map String.mk

/-- Terminal event of one playing utterance.  Per the Web Speech API, an
utterance removed by `speechSynthesis.cancel()` while in progress fires its
error callback (error code `interrupted`); natural completion fires `onend`
and a playback failure fires `onerror`. -/
inductive ChunkSignal where
  | ends : ChunkSignal
  | errors : ChunkSignal
  | interrupted : ChunkSignal
deriving DecidableEq

/-- Indices of the chunks that start playing, given the closure counter
`currentChunk` and the terminal signal of each successive playing chunk
(a final chunk with no signal yet is still playing).  This is the
`speakChunk` recursion of `speakText` (VoiceChatPanel.tsx lines 109-152,
identically part_004 lines 144-187): `speakChunk` plays chunk `currentChunk`
if it exists, and both `utterance.onend` and `utterance.onerror` run the same
body `currentChunk++; if (currentChunk < chunks.length)
setTimeout(speakChunk, 100)` — no cancellation flag is consulted, so the
continuation is independent of which signal fired. -/
def startedChunks (len : Nat) : Nat → List ChunkSignal → List Nat
  | current, [] => if current < len then [current] else []
  | current, _ :: rest =>
    if current < len then current :: startedChunks len (current + 1) rest
    else []

/-- The spec's speech-output input: a 450-character text of `'A'`s. -/
def text450 : String := String.mk (List.replicate 450 'A')

end SpeechOutput

namespace CodeEditor

/-- The eight selectable languages of the editor (CodeEditor.tsx lines
36-45); the `Select` control only ever hands one of these to
`handleLanguageChange`. -/
inductive Language where
  | python | java | javascript | cpp | c | csharp | go | rust
deriving DecidableEq

/-- The `codeTemplates` record (CodeEditor.tsx lines 47-56). -/
def codeTemplates : Language → String
  | Language.python =>
      "# Write your Python code here\ndef solution():\n    pass\n\nif __name__ == \"__main__\":\n    solution()"
  | Language.java =>
      "public class Main \x7b\n    public static void main(String[] args) \x7b\n        // Write your Java code here\n        String input = \"Hello World\";\n        String reversed = reverseString(input);\n        System.out.println(reversed);\n    \x7d\n    \n    public static String reverseString(String str) \x7b\n        // Your solution here\n        return str;\n    \x7d\n\x7d"
  | Language.javascript =>
      "// Write your JavaScript code here\nfunction solution() \x7b\n    // your code\n\x7d\n\nsolution();"
  | Language.cpp =>
      "#include <iostream>\nusing namespace std;\n\nint main() \x7b\n    // Write your C++ code here\n    return 0;\n\x7d"
  | Language.c =>
      "#include <stdio.h>\n\nint main() \x7b\n    // Write your C code here\n    return 0;\n\x7d"
  | Language.csharp =>
      "using System;\n\nclass Program \x7b\n    static void Main() \x7b\n        // Write your C# code here\n    \x7d\n\x7d"
  | Language.go =>
      "package main\n\nimport \"fmt\"\n\nfunc main() \x7b\n    // Write your Go code here\n\x7d"
  | Language.rust =>
      "fn main() \x7b\n    // Write your Rust code here\n\x7d"

/-- Execution result object as rendered by the output panel.  A parsed server
body carries these fields; the two client-constructed failure objects
(CodeEditor.tsx lines 112-126) fill `success`, `error`, `status`, `statusId`. -/
structure ExecOutput where
  success : Bool
  status : String
  error : Option String
  statusId : Option Nat
deriving DecidableEq

/-- Editor state cells used by `handleLanguageChange`: the buffer `code`, the
selected `language`, and the previous execution `output` (nullable). -/
structure EditorState where
  code : String
  language : Language
  output : Option ExecOutput
deriving DecidableEq

/-- Handler `handleLanguageChange` (CodeEditor.tsx lines 58-64):
`setLanguage(newLanguage); setOutput(null); if (!code || code ===
codeTemplates[language]) setCode(codeTemplates[newLanguage])` — the guard
compares against the template of the closure's previous `language`. -/
def handleLanguageChange (s : EditorState) (newLanguage : Language) : EditorState :=
  { code :=
      if s.code = "" ∨ s.code = codeTemplates s.language then
        codeTemplates newLanguage
      else s.code
    language := newLanguage
    output := none }

/-- Outcome of the awaited `fetch`-and-parse in `handleRunCode`: a parsed
response body, a rejection with `error.name === 'AbortError'` (the
`AbortController` fired), or any other rejection. -/
inductive FetchOutcome where
  | resolved : ExecOutput → FetchOutcome
  | abortError : FetchOutcome
  | otherError : String → FetchOutcome
deriving DecidableEq

/-- Timeout race of `handleRunCode` (CodeEditor.tsx lines 82-100):
`setTimeout(() => controller.abort(), 20000)` aborts the in-flight request
unless the fetch resolved first, so a run resolving at `t` ms is parsed when
`t < 20000` and otherwise rejects with `AbortError` (`resolvesAt = none`
models a never-resolving run). -/
def fetchOutcome (resolvesAt : Option Nat) (body : ExecOutput) : FetchOutcome :=
  match resolvesAt with
  | some t => if t < 20000 then FetchOutcome.resolved body else FetchOutcome.abortError
  | none => FetchOutcome.abortError

/-- Result stored by `handleRunCode` (CodeEditor.tsx lines 105-126): the
parsed body on resolution; on a caught `AbortError` the timeout object with
`status: 'Timeout'`, `statusId: 5` and the infinite-loop guidance; on any
other caught error the generic object with `status: 'Error'`, `statusId: 4`. -/
def handleRunCode (outcome : FetchOutcome) : ExecOutput :=
  match outcome with
  | FetchOutcome.resolved body => body
  | FetchOutcome.abortError =>
      { success := false
        status := "Timeout"
        error := some "Execution timed out after 20 seconds. Your code may have an infinite loop or is taking too long to run."
        statusId := some 5 }
  | FetchOutcome.otherError msg =>
      { success := false
        status := "Error"
        error := some msg
        statusId := some 4 }

end CodeEditor

set_option maxRecDepth 8000

/-- Helper: setting the element just past a prefix replaces the head of the
suffix. -/
theorem list_set_append_cons {α : Type} (xs : List α) (z : α) (ys : List α) (v : α) :
    (xs ++ z :: ys).set xs.length v = xs ++ v :: ys := by
  induction xs with
  | nil => rfl
  | cons a t ih => exact congrArg (List.cons a) ih

/-- Helper: keeping the non-null entries of an all-non-null list recovers it. -/
theorem filterMap_id_map_some {α : Type} (l : List α) :
    (l.map some).filterMap id = l := by
  induction l with
  | nil => rfl
  | cons a t ih => simp [ih]

/-- Helper for C1: evaluation of one `submit → next` round at any in-range
current index whose typed answer is non-blank: the answer and feedback slots
at the current index are overwritten, then next either advances or completes
with the non-null feedbacks. -/
theorem submitNextRound_eval (qs : List Question) (ans : List String)
    (fb : List (Option FeedbackResult)) (i : Nat) (a : String) (r : FeedbackResult)
    (hia : i < ans.length) (ht : jsTrim a ≠ "") :
    TextSession.submitNextRound ⟨qs, ans, fb, i⟩ a r
      = if i < qs.length - 1 then
          Sum.inl ⟨qs, ans.set i a, fb.set i (some r), i + 1⟩
        else
          Sum.inr ⟨qs, ans.set i a, (fb.set i (some r)).filterMap id⟩ := by
  have hget : (ans.set i a)[i]? = some a := List.getElem?_set_self hia
  simp [TextSession.submitNextRound, TextSession.updateAnswer,
    TextSession.handleSubmitAnswer, TextSession.currentAnswer,
    TextSession.handleNext, List.getD_eq_getElem?_getD, hget, ht]

/-- Helper for C1: generalized induction.  From a state whose first
`done.length` feedback slots hold the already-collected feedbacks and whose
remaining slots are null, running one successful `submit → next` round per
remaining question completes with a bundle whose feedback list is the
collected feedbacks followed by the new results, in question order. -/
theorem runRounds_completes_aux :
    ∀ (pairs : List (String × FeedbackResult)) (qs : List Question)
      (done : List FeedbackResult) (ans : List String),
      pairs ≠ [] →
      done.length + pairs.length = qs.length →
      ans.length = qs.length →
      (∀ p ∈ pairs, jsTrim p.1 ≠ "") →
      ∃ finalAns,
        TextSession.runRounds
          { questions := qs, answers := ans,
            feedbacks := done.map some ++ List.replicate pairs.length none,
            currentIndex := done.length } pairs
          = some { questions := qs, answers := finalAns,
                   feedbacks := done ++ pairs.map Prod.snd } := by
  intro pairs
  induction pairs with
  | nil => intro qs done ans hne; exact absurd rfl hne
  | cons pr rest ih =>
    intro qs done ans _ hlen hans htrim
    obtain ⟨a, r⟩ := pr
    have hlen' : done.length + rest.length + 1 = qs.length := by simpa using hlen
    have hia : done.length < ans.length := by rw [hans]; omega
    have htrima : jsTrim a ≠ "" := htrim (a, r) (List.mem_cons_self _ _)
    have hfeed : (done.map some ++
          List.replicate (rest.length + 1) (none : Option FeedbackResult)).set
            done.length (some r)
        = (done ++ [r]).map some ++ List.replicate rest.length none := by
      have h0 : List.replicate (rest.length + 1) (none : Option FeedbackResult)
          = none :: List.replicate rest.length none := rfl
      have h1 : done.length = (done.map some).length := (List.length_map _ _).symm
      rw [h0, h1, list_set_append_cons]
      simp
    have heval := submitNextRound_eval qs ans
      (done.map some ++ List.replicate (rest.length + 1) none) done.length a r
      hia htrima
    simp only [TextSession.runRounds, List.length_cons]
    rw [heval]
    by_cases hrest : rest = []
    · subst hrest
      have hq : done.length + 1 = qs.length := by simpa using hlen'
      rw [if_neg (by omega : ¬ done.length < qs.length - 1)]
      refine ⟨ans.set done.length a, ?_⟩
      rw [hfeed]
      have hb := filterMap_id_map_some (done ++ [r])
      simp [hb]
    · have hlt : done.length < qs.length - 1 := by
        have hr0 : rest.length ≠ 0 := fun h => hrest (List.eq_nil_of_length_eq_zero h)
        omega
      rw [if_pos hlt]
      have hidx : done.length + 1 = (done ++ [r]).length := by simp
      obtain ⟨fa, hrun⟩ := ih qs (done ++ [r]) (ans.set done.length a) hrest
        (by simp; omega) (by simp [hans]) (fun p hp => htrim p (List.mem_cons_of_mem _ hp))
      have hfb : (done ++ [r]) ++ List.map Prod.snd rest
          = done ++ List.map Prod.snd ((a, r) :: rest) := by simp
      rw [hfb] at hrun
      rw [hfeed, hidx]
      exact ⟨fa, hrun⟩

/-- C1: for an interview of N questions in the text session flow, performing
`submit` (with the remote call succeeding) followed by `next` on every
question hands the results collaborator a bundle with exactly N feedback
entries, one per submitted result in question order; when each remote result
carries a score in [0, 100] (the external gateway's Feedback contract — the
client stores scores unclamped), every entry of the bundle does too.  The
typed answers must be non-blank, as submit would otherwise reject locally. -/
theorem text_full_run_bundle (qs : List Question)
    (pairs : List (String × FeedbackResult))
    (hne : qs ≠ []) (hlen : pairs.length = qs.length)
    (htrim : ∀ p ∈ pairs, jsTrim p.1 ≠ "")
    (hscore : ∀ p ∈ pairs, 0 ≤ p.2.score ∧ p.2.score ≤ 100) :
    ∃ b, TextSession.runRounds (TextSession.initSession qs) pairs = some b ∧
      b.feedbacks.length = qs.length ∧
      ∀ f ∈ b.feedbacks, 0 ≤ f.score ∧ f.score ≤ 100 := by
  have hpne : pairs ≠ [] := by
    intro h
    subst h
    exact hne (List.eq_nil_of_length_eq_zero hlen.symm)
  have hinit : TextSession.initSession qs
      = { questions := qs, answers := List.replicate qs.length "",
          feedbacks := ([] : List FeedbackResult).map some ++
            List.replicate pairs.length none,
          currentIndex := ([] : List FeedbackResult).length } := by
    simp [TextSession.initSession, hlen]
  obtain ⟨fa, hrun⟩ := runRounds_completes_aux pairs qs [] (List.replicate qs.length "")
    hpne (by simpa using hlen) (by simp) htrim
  rw [hinit, hrun]
  refine ⟨_, rfl, ?_, ?_⟩
  · simp [hlen]
  · intro f hf
    simp only [List.nil_append, List.mem_map] at hf
    obtain ⟨p, hp, hpf⟩ := hf
    exact hpf ▸ hscore p hp

/-- Witness for `text_full_run_bundle`: a two-question interview whose two
submits succeed with scores 80 and 60. -/
theorem text_full_run_bundle_witness :
    ∃ b, TextSession.runRounds
        (TextSession.initSession
          [{ id := "1", questionText := "q1" }, { id := "2", questionText := "q2" }])
        [("answer one", { score := 80, aiFeedback := "good" }),
         ("answer two", { score := 60, aiFeedback := "fair" })] = some b ∧
      b.feedbacks.length
        = ([{ id := "1", questionText := "q1" },
            { id := "2", questionText := "q2" }] : List Question).length ∧
      ∀ f ∈ b.feedbacks, 0 ≤ f.score ∧ f.score ≤ 100 :=
  text_full_run_bundle _ _ (by decide) (by decide) (by decide) (by decide)

/-- C9: in the coding round, pressing next on the last question emits the
finalized bundle: the question list, the non-null collected feedbacks in
question order, and one raw answer per slot formatted as
`Language: {lang}\n\n{code}` from that slot's stored language and code. -/
theorem coding_next_last_formats_bundle (s : CodingSession.CodingState)
    (hlast : ¬ s.currentIndex < s.questions.length - 1) :
    ∃ b, CodingSession.codingHandleNext s = Sum.inr b ∧
      b.questions = s.questions ∧
      b.feedbacks = s.feedbacks.filterMap id ∧
      b.answers.length = s.answers.length ∧
      ∀ i, i < s.answers.length →
        b.answers.getD i ""
          = CodingSession.formatCodingAnswer (s.languages.getD i "undefined")
              (s.answers.getD i "") := by
  unfold CodingSession.codingHandleNext
  rw [if_neg hlast]
  refine ⟨_, rfl, rfl, rfl, ?_, ?_⟩
  · simp
  · intro i hi
    have h1 : s.answers[i]? = some s.answers[i] := List.getElem?_eq_getElem hi
    simp [List.getD_eq_getElem?_getD, List.getElem?_map, List.getElem?_enum, h1]

/-- Witness for `coding_next_last_formats_bundle`: a one-question coding
session on its last question with stored language `"java"` and code
`"class A"`. -/
theorem coding_next_last_formats_bundle_witness :
    ∃ b, CodingSession.codingHandleNext
        { questions := [{ id := "1", questionText := "reverse a string" }]
          answers := ["class A"]
          languages := ["java"]
          feedbacks := [some { score := 77, aiFeedback := "ok" }]
          currentIndex := 0 } = Sum.inr b ∧
      b.questions = [{ id := "1", questionText := "reverse a string" }] ∧
      b.feedbacks = ([some { score := 77, aiFeedback := "ok" }] :
          List (Option FeedbackResult)).filterMap id ∧
      b.answers.length = (["class A"] : List String).length ∧
      ∀ i, i < (["class A"] : List String).length →
        b.answers.getD i ""
          = CodingSession.formatCodingAnswer ((["java"] : List String).getD i "undefined")
              ((["class A"] : List String).getD i "") :=
  coding_next_last_formats_bundle _ (by decide)

/-- C2 counterexample: for feedback scores 90, 55 and 70 the bucket counts
claimed by the spec are wrong on the code: the score 90 falls in the
`Excellent >= 80` bucket, so the buckets hold 1, 1 and 1 questions — not 0,
2 and 1.  (Also, the label band for `"Good Work"` is 70-79, not 60-79: a
score of 65 is labelled `"Keep Practicing"`.) -/
theorem results_scenario_buckets_refuted :
    ResultsPage.highScoreQuestions ResultsPage.resultsScenario ≠ 0 ∧
    ResultsPage.mediumScoreQuestions ResultsPage.resultsScenario ≠ 2 ∧
    ResultsPage.highScoreQuestions ResultsPage.resultsScenario = 1 ∧
    ResultsPage.getScoreLabel 65 = "Keep Practicing" := by
  refine ⟨by decide, by decide, by decide, by decide⟩

/-- C2 amended: for the concrete results scenario of 3 questions with
feedback scores 90, 55 and 70, the results view displays an overall score of
round((90+55+70)/3) = 72, classifies it with the label `"Good Work"` (the
70-79 label band), and shows bucket counts of 1 question in the
`Excellent >= 80` bucket, 1 in the 60-79 bucket and 1 in the `< 60` bucket. -/
theorem results_scenario_overall_label_buckets :
    ResultsPage.overallScore ResultsPage.resultsScenario = some 72 ∧
    ResultsPage.getScoreLabel 72 = "Good Work" ∧
    ResultsPage.highScoreQuestions ResultsPage.resultsScenario = 1 ∧
    ResultsPage.mediumScoreQuestions ResultsPage.resultsScenario = 1 ∧
    ResultsPage.lowScoreQuestions ResultsPage.resultsScenario = 1 := by
  refine ⟨?_, by decide, by decide, by decide, by decide⟩
  have h : ResultsPage.overallScore ResultsPage.resultsScenario
      = some (ResultsPage.jsRound ((215 : ℚ) / 3)) := by
    simp [ResultsPage.overallScore, ResultsPage.resultsScenario]
  rw [h, ResultsPage.jsRound]
  norm_num [Int.floor_eq_iff]

/-- Helper for C3: the per-event finalized text is unchanged if the interim
segments of the event are dropped. -/
theorem eventFinal_filter_final (segs : List SpeechInput.Segment) :
    SpeechInput.eventFinal (segs.filter (fun s => s.isFinal))
      = SpeechInput.eventFinal segs := by
  unfold SpeechInput.eventFinal
  suffices h : ∀ acc : String,
      (segs.filter (fun s => s.isFinal)).foldl
          (fun acc s => if s.isFinal then acc ++ s.transcript ++ " " else acc) acc
        = segs.foldl
            (fun acc s => if s.isFinal then acc ++ s.transcript ++ " " else acc) acc from
    h ""
  induction segs with
  | nil => intro acc; rfl
  | cons s t ih =>
    intro acc
    cases hsf : s.isFinal <;> simp [List.filter_cons, hsf, ih]

/-- C3 counterexample: running the enhanced `onresult` accumulator over the
spec's event sequence does not yield `"hi friend "` — the handler trims the
transcript on every append, so there is no trailing space. -/
theorem transcript_scenario_trailing_space_refuted :
    SpeechInput.processEvents SpeechInput.scenarioEvents ≠ "hi friend " := by
  decide

/-- C3 amended: processing the event sequence `[final "hi ", interim "there",
final "friend "]` yields the durable transcript `"hi friend"` (each append is
space-joined and then trimmed), the interim segment only transiently shows as
`"there"` in the display-only transcript of the VoiceAssistant handler, and —
for every event sequence — dropping all interim segments leaves the durable
transcript unchanged, i.e. interim text is never concatenated into it. -/
theorem transcript_final_only_accumulation :
    SpeechInput.processEvents SpeechInput.scenarioEvents = "hi friend" ∧
    SpeechInput.assistantDisplay [SpeechInput.ev1, SpeechInput.ev2] = "there" ∧
    ∀ events : List (List SpeechInput.Segment),
      SpeechInput.processEvents (events.map (fun e => e.filter (fun s => s.isFinal)))
        = SpeechInput.processEvents events := by
  refine ⟨by decide, by decide, ?_⟩
  intro events
  unfold SpeechInput.processEvents
  suffices h : ∀ acc : String,
      (events.map (fun e => e.filter (fun s => s.isFinal))).foldl
          SpeechInput.enhancedOnResult acc
        = events.foldl SpeechInput.enhancedOnResult acc from h ""
  induction events with
  | nil => intro acc; rfl
  | cons e t ih =>
    intro acc
    have he : SpeechInput.enhancedOnResult acc (e.filter (fun s => s.isFinal))
        = SpeechInput.enhancedOnResult acc e := by
      unfold SpeechInput.enhancedOnResult
      rw [eventFinal_filter_final]
    simp only [List.map_cons, List.foldl_cons, he, ih]

/-- C4: the 450-character text is split into exactly 3 chunks (200, 200 and
50 characters) and, when each playing chunk reports natural completion, the
chunks start strictly in order 1, 2, 3.  However, the claim's cancellation
property fails on the code: `speechSynthesis.cancel()` makes the in-progress
utterance fire its error callback, and the shared `onend`/`onerror` body
unconditionally advances `currentChunk` and schedules the next chunk after
100 ms without consulting any cancellation flag — so after cancelling during
chunk 1, chunk 2 still starts playing (`startedChunks 3 0 [interrupted] =
[0, 1]`). -/
theorem speak_chunking_and_cancel_chain :
    (SpeechOutput.chunkText SpeechOutput.text450).map String.length
        = [200, 200, 50] ∧
    SpeechOutput.startedChunks 3 0
        [SpeechOutput.ChunkSignal.ends, SpeechOutput.ChunkSignal.ends,
         SpeechOutput.ChunkSignal.ends] = [0, 1, 2] ∧
    SpeechOutput.startedChunks 3 0 [SpeechOutput.ChunkSignal.interrupted]
        = [0, 1] := by
  refine ⟨by decide, by decide, by decide⟩

/-- Helper for C10: starting from any voice-session state, pressing skip once
per remaining question completes the interview with exactly the answers and
feedbacks collected so far. -/
theorem voice_skipAll_completes :
    ∀ (n : Nat) (s : VoiceSession.VoiceState), 0 < n →
      s.currentIndex + n = s.questions.length →
      VoiceSession.skipAll s n
        = some { questions := s.questions, answers := s.answers,
                 feedbacks := s.feedbacks } := by
  intro n
  induction n with
  | zero => intro s h _; exact absurd h (Nat.lt_irrefl 0)
  | succ m ih =>
    intro s _ hlen
    cases m with
    | zero =>
      have hnot : ¬ s.currentIndex < s.questions.length - 1 := by omega
      simp [VoiceSession.skipAll, VoiceSession.handleSkip, hnot]
    | succ k =>
      have hlt : s.currentIndex < s.questions.length - 1 := by omega
      simp only [VoiceSession.skipAll, VoiceSession.handleSkip, if_pos hlt]
      exact ih { s with currentIndex := s.currentIndex + 1 } (Nat.succ_pos k)
        (by show s.currentIndex + 1 + (k + 1) = s.questions.length; omega)

/-- C10: the results view computes the overall score with no guard for an
empty feedback list.  For every bundle with at least one feedback the overall
score is a well-defined integer (`isSome`), but the empty bundle is reachable
in the voice flow — skipping every one of the questions completes with an
empty feedback list — and on it the computation is the JS division `0 / 0`
(`NaN`, modelled as `none`): non-emptiness is an unstated precondition of the
results view. -/
theorem overall_score_empty_bundle_undefined
    (qs : List Question) (fbs : List FeedbackResult)
    (hqs : qs ≠ []) (hfbs : fbs ≠ []) :
    (∃ b, VoiceSession.skipAll (VoiceSession.initVoice qs) qs.length = some b ∧
      b.feedbacks = [] ∧ ResultsPage.overallScore b.feedbacks = none) ∧
    (ResultsPage.overallScore fbs).isSome := by
  constructor
  · refine ⟨_, voice_skipAll_completes qs.length (VoiceSession.initVoice qs)
      (List.length_pos.mpr hqs) (by simp [VoiceSession.initVoice]), rfl, rfl⟩
  · simp [ResultsPage.overallScore, hfbs]

/-- Witness for `overall_score_empty_bundle_undefined`: a one-question voice
interview that is skipped entirely, against a singleton feedback list. -/
theorem overall_score_empty_bundle_undefined_witness :
    (∃ b, VoiceSession.skipAll
        (VoiceSession.initVoice [{ id := "1", questionText := "q" }]) 1 = some b ∧
      b.feedbacks = [] ∧ ResultsPage.overallScore b.feedbacks = none) ∧
    (ResultsPage.overallScore [{ score := 88, aiFeedback := "nice" }]).isSome :=
  overall_score_empty_bundle_undefined _ _ (by decide) (by decide)

/-- C5: for every question index, submitting an empty or whitespace-only
answer from the text session performs no network call and leaves the whole
session state — in particular the answer and feedback stored for the current
slot — unchanged; only the local validation toast is produced. -/
theorem submit_empty_answer_local_noop (s : TextSession.SessionState)
    (outcome : SubmitOutcome) (h : jsTrim (TextSession.currentAnswer s) = "") :
    TextSession.handleSubmitAnswer s outcome = (s, SubmitEffect.validationError) := by
  simp [TextSession.handleSubmitAnswer, h]

/-- Witness for `submit_empty_answer_local_noop`: a two-question session whose
current answer is the whitespace-only string `" "`. -/
theorem submit_empty_answer_local_noop_witness :
    TextSession.handleSubmitAnswer
        { questions := [{ id := "1", questionText := "Tell me about yourself" },
                        { id := "2", questionText := "Why this role" }]
          answers := [" ", ""]
          feedbacks := [none, none]
          currentIndex := 0 }
        (SubmitOutcome.success { score := 50, aiFeedback := "ok" })
      = ({ questions := [{ id := "1", questionText := "Tell me about yourself" },
                         { id := "2", questionText := "Why this role" }]
           answers := [" ", ""]
           feedbacks := [none, none]
           currentIndex := 0 }, SubmitEffect.validationError) :=
  submit_empty_answer_local_noop _ _ (by decide)

/-- C6: if the remote submit call fails (the api throws on network failure,
non-2xx responses and malformed bodies), the catch branch only shows a toast:
the returned state is exactly the input state, so the typed answer is
preserved, the feedback slot is unchanged (still null if it was null, hence
the question is still in the Answering phase), and the same submit can be
retried. -/
theorem submit_failure_state_unchanged (s : TextSession.SessionState)
    (msg : String) (h : jsTrim (TextSession.currentAnswer s) ≠ "") :
    TextSession.handleSubmitAnswer s (SubmitOutcome.failure msg)
      = (s, SubmitEffect.networkCall) := by
  simp [TextSession.handleSubmitAnswer, h]

/-- Witness for `submit_failure_state_unchanged`: a session with the typed
answer `"my answer"` whose submit call fails with a network error. -/
theorem submit_failure_state_unchanged_witness :
    TextSession.handleSubmitAnswer
        { questions := [{ id := "1", questionText := "Tell me about yourself" }]
          answers := ["my answer"]
          feedbacks := [none]
          currentIndex := 0 }
        (SubmitOutcome.failure "Failed to fetch")
      = ({ questions := [{ id := "1", questionText := "Tell me about yourself" }]
           answers := ["my answer"]
           feedbacks := [none]
           currentIndex := 0 }, SubmitEffect.networkCall) :=
  submit_failure_state_unchanged _ _ (by decide)

/-- C7: changing the selected language always clears the previous execution
result and records the new language; the buffer is replaced with the new
language's starter template exactly when it is empty or still equal to the
previous language's starter template, and otherwise the user's edits are left
untouched. -/
theorem language_change_template_policy (s : CodeEditor.EditorState)
    (l : CodeEditor.Language) :
    (CodeEditor.handleLanguageChange s l).output = none ∧
    (CodeEditor.handleLanguageChange s l).language = l ∧
    (s.code = "" ∨ s.code = CodeEditor.codeTemplates s.language →
      (CodeEditor.handleLanguageChange s l).code = CodeEditor.codeTemplates l) ∧
    (¬(s.code = "" ∨ s.code = CodeEditor.codeTemplates s.language) →
      (CodeEditor.handleLanguageChange s l).code = s.code) := by
  refine ⟨rfl, rfl, fun h => ?_, fun h => ?_⟩ <;>
    simp [CodeEditor.handleLanguageChange, h]

/-- Witness for `language_change_template_policy`: switching from the
untouched Python template to Java installs the Java template, while switching
after typing custom Python code leaves the buffer untouched. -/
theorem language_change_template_policy_witness :
    (CodeEditor.handleLanguageChange
        { code := CodeEditor.codeTemplates CodeEditor.Language.python
          language := CodeEditor.Language.python
          output := none } CodeEditor.Language.java).code
      = CodeEditor.codeTemplates CodeEditor.Language.java ∧
    (CodeEditor.handleLanguageChange
        { code := "print(123)"
          language := CodeEditor.Language.python
          output := none } CodeEditor.Language.java).code
      = "print(123)" :=
  ⟨(language_change_template_policy _ _).2.2.1 (Or.inr rfl),
   (language_change_template_policy _ _).2.2.2 (by decide)⟩

/-- C8: a run whose fetch has not resolved when the 20000 ms timer fires is
aborted (`AbortError`) and stored with status `"Timeout"` and the
infinite-loop guidance, while any other failure is stored with the distinct
generic status `"Error"`. -/
theorem run_timeout_distinct_status (resolvesAt : Option Nat)
    (body : CodeEditor.ExecOutput) (msg : String)
    (h : resolvesAt = none ∨ ∃ t, resolvesAt = some t ∧ 20000 ≤ t) :
    (CodeEditor.handleRunCode (CodeEditor.fetchOutcome resolvesAt body)).status
        = "Timeout" ∧
    (CodeEditor.handleRunCode (CodeEditor.FetchOutcome.otherError msg)).status
        = "Error" ∧
    (CodeEditor.handleRunCode (CodeEditor.fetchOutcome resolvesAt body)).status
        ≠ (CodeEditor.handleRunCode (CodeEditor.FetchOutcome.otherError msg)).status := by
  have habort : CodeEditor.fetchOutcome resolvesAt body
      = CodeEditor.FetchOutcome.abortError := by
    rcases h with h | ⟨t, ht, hle⟩
    · simp [CodeEditor.fetchOutcome, h]
    · simp [CodeEditor.fetchOutcome, ht, Nat.not_lt.mpr hle]
  refine ⟨?_, rfl, ?_⟩ <;> simp [habort, CodeEditor.handleRunCode]

/-- Witness for `run_timeout_distinct_status`: a never-resolving run. -/
theorem run_timeout_distinct_status_witness :
    (CodeEditor.handleRunCode
        (CodeEditor.fetchOutcome none
          { success := true, status := "Accepted", error := none, statusId := some 3 })).status
        = "Timeout" ∧
    (CodeEditor.handleRunCode (CodeEditor.FetchOutcome.otherError "Failed to fetch")).status
        = "Error" ∧
    (CodeEditor.handleRunCode
        (CodeEditor.fetchOutcome none
          { success := true, status := "Accepted", error := none, statusId := some 3 })).status
        ≠ (CodeEditor.handleRunCode (CodeEditor.FetchOutcome.otherError "Failed to fetch")).status :=
  run_timeout_distinct_status none _ _ (Or.inl rfl)
